import Mathlib

/-!
Verification of `instructor/dsl/partial.py` and `instructor/mode.py`:
the streaming materializer (`PartialBase`) and the schema optionalizer
(`Partial`), embedded shallowly.
-/

set_option maxHeartbeats 1000000

namespace Instructor

/-- The `Mode` enumeration from `instructor/mode.py`. -/
inductive Mode where
  | FUNCTIONS
  | PARALLEL_TOOLS
  | TOOLS
  | MISTRAL_TOOLS
  | UNGUIDED_JSON
  | PARSED_UNGUIDED_JSON
  | JSON
  | MD_JSON
  | JSON_SCHEMA
  deriving DecidableEq, Repr

/-- A pydantic field default, as `_make_field_optional` manipulates it:
`required` (no default, the strict source case), Python `None`, or the empty
dict `{}` placed on directly-nested model fields. -/
inductive Dflt where
  | required
  | noneD
  | emptyDict
  deriving DecidableEq, Repr

/-- Python type annotations as `_make_field_optional` inspects them through
`get_origin` / `get_args` / `issubclass(-, BaseModel)`:
`prim` is a non-model class (int, str, an enum, ...), `noneType` is
`NoneType`, `model` a `BaseModel` subclass with its name and declared fields
(name, annotation, default), `cont` a parameterized generic container such as
`list[...]` or `dict[...]` with its origin, and `union` a flattened
`typing.Union[...]` (so `Optional[X]` is `union [X, noneType]`). -/
inductive Ty where
  | prim (p : String)
  | noneType
  | model (n : String) (fs : List (String × Ty × Dflt))
  | cont (o : String) (args : List Ty)
  | union (args : List Ty)
  deriving Repr

mutual

/-- Structural equality on annotations, as Python `==` compares the type
objects involved (classes by identity, which for our purposes is their name
plus declared structure; generic aliases and unions structurally). -/
def Ty.beq : Ty → Ty → Bool
  | .prim p, .prim q => p == q
  | .noneType, .noneType => true
  | .model n fs, .model m gs => n == m && Ty.fieldsBeq fs gs
  | .cont o as, .cont p bs => o == p && Ty.listBeq as bs
  | .union as, .union bs => Ty.listBeq as bs
  | _, _ => false

/-- Pointwise `Ty.beq` on argument lists. -/
def Ty.listBeq : List Ty → List Ty → Bool
  | [], [] => true
  | a :: as, b :: bs => Ty.beq a b && Ty.listBeq as bs
  | _, _ => false

/-- Pointwise equality on field declarations. -/
def Ty.fieldsBeq :
    List (String × Ty × Dflt) → List (String × Ty × Dflt) → Bool
  | [], [] => true
  | (fn, t, d) :: fs, (gn, u, e) :: gs =>
      fn == gn && Ty.beq t u && d == e && Ty.fieldsBeq fs gs
  | _, _ => false

end


/-- One flattening pass over prospective `Union` arguments, as Python's
`typing.Union[...]` splices a nested union into the enclosing one.  (The
arguments of every `Ty.union` we build are already flat, so one pass is the
fixed point.) -/
def unionFlat : List Ty → List Ty
  | [] => []
  | Ty.union as :: rest => as ++ unionFlat rest
  | t :: rest => t :: unionFlat rest

/-- Deduplication keeping first occurrences, as `typing.Union` drops repeated
arguments: an element `Ty.beq`-equal to one already seen is dropped. -/
def dedupTyAux (seen : List Ty) : List Ty → List Ty
  | [] => []
  | t :: rest =>
      if seen.any (fun u => Ty.beq t u) then dedupTyAux seen rest
      else t :: dedupTyAux (t :: seen) rest

/-- Deduplication of prospective `Union` arguments. -/
def dedupTy (args : List Ty) : List Ty := dedupTyAux [] args

/-- Build `typing.Union[args]`: flatten nested unions, deduplicate, and
collapse a singleton (`Union[X] = X`; in particular
`Optional[None] = NoneType`). -/
def mkUnion (args : List Ty) : Ty :=
  match dedupTy (unionFlat args) with
  | [a] => a
  | as => Ty.union as

/-- `Optional[t] = Union[t, None]`. -/
def mkOptional (t : Ty) : Ty := mkUnion [t, Ty.noneType]

/-- `get_origin(annotation)`: `some` of the origin for parameterized generics
(`Union` included), `none` for plain classes. -/
def getOrigin : Ty → Option String
  | Ty.cont o _ => some o
  | Ty.union _ => some "Union"
  | _ => none

/-- `get_args(annotation)`. -/
def getArgs : Ty → List Ty
  | Ty.cont _ as => as
  | Ty.union as => as
  | _ => []

/-- `isinstance(arg, type) and issubclass(arg, BaseModel)`: only a plain
`BaseModel` subclass qualifies; parameterized generic aliases, unions,
`NoneType` and non-model classes do not. -/
def isModelTy : Ty → Bool
  | Ty.model _ _ => true
  | _ => false

/-- `generic_base[modified_args]`: re-subscript the origin with the new
arguments (`Union` re-normalizes, containers do not). -/
def subscriptGeneric (o : String) (args : List Ty) : Ty :=
  if o = "Union" then mkUnion args else Ty.cont o args

mutual

/-- `_make_field_optional` from `instructor/dsl/partial.py` (lines 188-222):
returns the rewritten annotation and the new default for one field.  The
three branches are, in source order: a parameterized generic
(`get_origin(annotation) is not None`), a direct `BaseModel` subclass, and
everything else.  `Partial[...]` on the directly-nested model is written out
inline (`Ty.model ("Partial" ++ n) (optionalFields fs)`) so that the mutual
recursion is structural; `Partial_getitem` below packages the same
expression, and `make_field_optional_model_eq` records the connection. -/
def make_field_optional : Ty → Ty × Dflt
  | Ty.cont o args =>
      (mkOptional (subscriptGeneric o (modifiedArgs args)), Dflt.noneD)
  | Ty.union args =>
      (mkOptional (subscriptGeneric "Union" (modifiedArgs args)), Dflt.noneD)
  | Ty.model n fs =>
      (mkOptional (Ty.model ("Partial" ++ n) (optionalFields fs)),
       Dflt.emptyDict)
  | Ty.prim p => (mkOptional (Ty.prim p), Dflt.noneD)
  | Ty.noneType => (mkOptional Ty.noneType, Dflt.noneD)

/-- The comprehension over `get_args(annotation)`: each argument that is
directly a `BaseModel` subclass is replaced by `Partial[arg]` (again written
inline), every other argument is kept as is. -/
def modifiedArgs : List Ty → List Ty
  | [] => []
  | a :: rest =>
      (match a with
        | Ty.model n fs => Ty.model ("Partial" ++ n) (optionalFields fs)
        | t => t) :: modifiedArgs rest

/-- The field dictionary passed to `create_model`: every declared field in
order, rewritten by `_make_field_optional`. -/
def optionalFields :
    List (String × Ty × Dflt) → List (String × Ty × Dflt)
  | [] => []
  | (fn, t, _) :: rest =>
      (fn, (make_field_optional t).1, (make_field_optional t).2)
        :: optionalFields rest

end

/-- `Partial.__class_getitem__` (lines 182-232): `create_model` with the name
prefixed by `Partial` and every declared field rewritten by
`_make_field_optional`.  (Only ever called with a `BaseModel` subclass; on
any other annotation it is the identity here, mirroring that Python would not
call it.) -/
def Partial_getitem : Ty → Ty
  | Ty.model n fs => Ty.model ("Partial" ++ n) (optionalFields fs)
  | t => t

/-- The declared fields of a model annotation. -/
def modelFields : Ty → List (String × Ty × Dflt)
  | Ty.model _ fs => fs
  | _ => []

/-- Whether a pydantic field carries a usable default (anything but
"required"). -/
def hasDefault : Dflt → Bool
  | Dflt.required => false
  | _ => true

/-! ## The streaming materializer (`PartialBase`) -/

/-- `delta.function_call` of a fragment: `none` models the attribute being
`None`, so that reading `.arguments` off it raises `AttributeError`. -/
structure FunctionCall where
  arguments : String
  deriving DecidableEq, Repr

/-- The `function` member of one streamed tool call. -/
structure ToolCallFunction where
  arguments : String
  deriving DecidableEq, Repr

/-- One element of `delta.tool_calls`. -/
structure ToolCall where
  function : ToolCallFunction
  deriving DecidableEq, Repr

/-- A streamed `delta`: each attribute may be `None` (`none` here). -/
structure Delta where
  function_call : Option FunctionCall
  content : Option String
  tool_calls : Option (List ToolCall)
  deriving DecidableEq, Repr

/-- One element of `chunk.choices`. -/
structure Choice where
  delta : Delta
  deriving DecidableEq, Repr

/-- One raw fragment of the streamed completion.  `choices = none` models a
fragment without a `choices` attribute at all (reading it raises
`AttributeError`, which the extractor catches); `some []` models an empty
(falsy) `choices` list. -/
structure Chunk where
  choices : Option (List Choice)
  deriving DecidableEq, Repr

/-- The one error the extraction loop can raise past its
`except AttributeError: pass`: the `NotImplementedError` for a mode that is
not supported for MultiTask streaming. -/
inductive StreamErr where
  | notImplemented (mode : Mode)
  deriving DecidableEq, Repr

/-- The body of `PartialBase.extract_json`'s loop (lines 104-121) for one
fragment: `.ok none` when the fragment contributes nothing (falsy or absent
`choices`, absent/falsy delta payload — the `AttributeError` cases are caught
by the surrounding `except ... pass`), `.ok (some s)` when it yields the text
`s`, and `.error` for the `NotImplementedError` of an unsupported mode, which
the `except AttributeError` clause does not catch. -/
def extract_json_step (mode : Mode) (chunk : Chunk) :
    Except StreamErr (Option String) :=
  match chunk.choices with
  | none => Except.ok none
  | some [] => Except.ok none
  | some (c :: _) =>
    match mode with
    | Mode.FUNCTIONS =>
      match c.delta.function_call with
      | none => Except.ok none
      | some fc =>
          if fc.arguments ≠ "" then Except.ok (some fc.arguments)
          else Except.ok none
    | Mode.JSON | Mode.MD_JSON | Mode.JSON_SCHEMA | Mode.PARSED_UNGUIDED_JSON =>
      match c.delta.content with
      | none => Except.ok none
      | some s => if s ≠ "" then Except.ok (some s) else Except.ok none
    | Mode.TOOLS =>
      match c.delta.tool_calls with
      | none => Except.ok none
      | some [] => Except.ok none
      | some (t :: _) => Except.ok (some t.function.arguments)
    | m => Except.error (StreamErr.notImplemented m)

/-- `PartialBase.extract_json` over a whole fragment stream: the list of
yielded text fragments, and the error that interrupted the stream, if any
(everything yielded before the interruption is kept). -/
def extract_json : List Chunk → Mode → List String × Option StreamErr
  | [], _ => ([], none)
  | chunk :: rest, mode =>
    match extract_json_step mode chunk with
    | Except.error e => ([], some e)
    | Except.ok none => extract_json rest mode
    | Except.ok (some s) =>
        let r := extract_json rest mode
        (s :: r.1, r.2)

/-- The body of `PartialBase.extract_json_async`'s loop (lines 127-144),
kept as its own literal copy exactly as the source duplicates it. -/
def extract_json_async_step (mode : Mode) (chunk : Chunk) :
    Except StreamErr (Option String) :=
  match chunk.choices with
  | none => Except.ok none
  | some [] => Except.ok none
  | some (c :: _) =>
    match mode with
    | Mode.FUNCTIONS =>
      match c.delta.function_call with
      | none => Except.ok none
      | some fc =>
          if fc.arguments ≠ "" then Except.ok (some fc.arguments)
          else Except.ok none
    | Mode.JSON | Mode.MD_JSON | Mode.JSON_SCHEMA | Mode.PARSED_UNGUIDED_JSON =>
      match c.delta.content with
      | none => Except.ok none
      | some s => if s ≠ "" then Except.ok (some s) else Except.ok none
    | Mode.TOOLS =>
      match c.delta.tool_calls with
      | none => Except.ok none
      | some [] => Except.ok none
      | some (t :: _) => Except.ok (some t.function.arguments)
    | m => Except.error (StreamErr.notImplemented m)

/-- `PartialBase.extract_json_async` over a whole fragment stream. -/
def extract_json_async : List Chunk → Mode → List String × Option StreamErr
  | [], _ => ([], none)
  | chunk :: rest, mode =>
    match extract_json_async_step mode chunk with
    | Except.error e => ([], some e)
    | Except.ok none => extract_json_async rest mode
    | Except.ok (some s) =>
        let r := extract_json_async rest mode
        (s :: r.1, r.2)

/-- Python truthiness of `potential_object.strip()`: the buffer is blank
when every character is whitespace. -/
def isBlank (s : String) : Bool := s.data.all Char.isWhitespace

/-- The loop of `PartialBase.model_from_chunks` (lines 60-76), carrying its
two state variables: `potential_object`, the accumulated text, and
`prev_obj`, the previously emitted instance (with `none` for Python's
initial `None`).  `parse` is the tolerant `JSONParser().parse` (an external
collaborator), `pyTruthy` the Python truthiness of a parsed value (the
`if task_json:` test), `validate` is `cls.model_validate(-, strict=None,
**kwargs)`.  Emitted instances are paired with the raw `chunk` attached to
`obj.__dict__` for diagnostics; per the spec that attachment is not part of
the instance equality `obj != prev_obj` uses. -/
def model_from_chunks_go {J Inst : Type} [DecidableEq Inst]
    (parse : String → Option J) (pyTruthy : J → Bool) (validate : J → Inst)
    (potential_object : String) (prev_obj : Option Inst) :
    List String → List (Inst × String)
  | [] => []
  | chunk :: rest =>
    let acc := potential_object ++ chunk
    let task_json : Option J := if !isBlank acc then parse acc else none
    match task_json with
    | some v =>
        if pyTruthy v then
          let obj := validate v
          if some obj ≠ prev_obj then
            (obj, chunk) :: model_from_chunks_go parse pyTruthy validate acc
              (some obj) rest
          else model_from_chunks_go parse pyTruthy validate acc prev_obj rest
        else model_from_chunks_go parse pyTruthy validate acc prev_obj rest
    | none => model_from_chunks_go parse pyTruthy validate acc prev_obj rest

/-- `PartialBase.model_from_chunks` (lines 56-76). -/
def model_from_chunks {J Inst : Type} [DecidableEq Inst]
    (parse : String → Option J) (pyTruthy : J → Bool) (validate : J → Inst)
    (json_chunks : List String) : List (Inst × String) :=
  model_from_chunks_go parse pyTruthy validate "" none json_chunks

/-- The loop of `PartialBase.model_from_chunks_async` (lines 78-98), a
literal copy of the synchronous loop as the source duplicates it. -/
def model_from_chunks_async_go {J Inst : Type} [DecidableEq Inst]
    (parse : String → Option J) (pyTruthy : J → Bool) (validate : J → Inst)
    (potential_object : String) (prev_obj : Option Inst) :
    List String → List (Inst × String)
  | [] => []
  | chunk :: rest =>
    let acc := potential_object ++ chunk
    let task_json : Option J := if !isBlank acc then parse acc else none
    match task_json with
    | some v =>
        if pyTruthy v then
          let obj := validate v
          if some obj ≠ prev_obj then
            (obj, chunk) :: model_from_chunks_async_go parse pyTruthy validate
              acc (some obj) rest
          else model_from_chunks_async_go parse pyTruthy validate acc
            prev_obj rest
        else model_from_chunks_async_go parse pyTruthy validate acc
          prev_obj rest
    | none => model_from_chunks_async_go parse pyTruthy validate acc
        prev_obj rest

/-- `PartialBase.model_from_chunks_async` (lines 78-98). -/
def model_from_chunks_async {J Inst : Type} [DecidableEq Inst]
    (parse : String → Option J) (pyTruthy : J → Bool) (validate : J → Inst)
    (json_chunks : List String) : List (Inst × String) :=
  model_from_chunks_async_go parse pyTruthy validate "" none json_chunks

/-- `PartialBase.from_streaming_response` (lines 34-43): extract, unwrap the
markdown fences in `MD_JSON` mode (`extract_json_from_stream` of
`instructor.utils`, outside this repository's staged sources, passed in as
`md_unwrap`), then materialize. -/
def from_streaming_response {J Inst : Type} [DecidableEq Inst]
    (parse : String → Option J) (pyTruthy : J → Bool) (validate : J → Inst)
    (md_unwrap : List String → List String)
    (completion : List Chunk) (mode : Mode) :
    List (Inst × String) × Option StreamErr :=
  let r := extract_json completion mode
  let json_chunks := if mode = Mode.MD_JSON then md_unwrap r.1 else r.1
  (model_from_chunks parse pyTruthy validate json_chunks, r.2)

/-- `PartialBase.from_streaming_response_async` (lines 45-54), mirroring the
synchronous pipeline with the asynchronous components. -/
def from_streaming_response_async {J Inst : Type} [DecidableEq Inst]
    (parse : String → Option J) (pyTruthy : J → Bool) (validate : J → Inst)
    (md_unwrap : List String → List String)
    (completion : List Chunk) (mode : Mode) :
    List (Inst × String) × Option StreamErr :=
  let r := extract_json_async completion mode
  let json_chunks := if mode = Mode.MD_JSON then md_unwrap r.1 else r.1
  (model_from_chunks_async parse pyTruthy validate json_chunks, r.2)

/-- The modes the extractor's `if/elif` chain handles without raising. -/
def supportedStreamingModes : List Mode :=
  [Mode.FUNCTIONS, Mode.JSON, Mode.MD_JSON, Mode.JSON_SCHEMA,
   Mode.PARSED_UNGUIDED_JSON, Mode.TOOLS]

/-- Whether `chunk.choices` is present and non-empty (`if chunk.choices:`). -/
def truthyChoices (chunk : Chunk) : Bool :=
  match chunk.choices with
  | some (_ :: _) => true
  | _ => false

/-- The accumulated buffer after each fragment, starting from the buffer
`potential_object`. -/
def accBuffersFrom (potential_object : String) : List String → List String
  | [] => []
  | chunk :: rest =>
      (potential_object ++ chunk)
        :: accBuffersFrom (potential_object ++ chunk) rest

/-- The accumulated buffer after each fragment of the stream. -/
def accBuffers (json_chunks : List String) : List String :=
  accBuffersFrom "" json_chunks

/-- The buffers on which `model_from_chunks` invokes the tolerant parser:
the accumulated buffers that are not blank (`if potential_object.strip()`). -/
def parseAttempts (json_chunks : List String) : List String :=
  (accBuffers json_chunks).filter (fun b => !isBlank b)

/-! ## Parsed Python values, for running the materializer concretely -/

/-- Python values as the tolerant parser returns them. -/
inductive PyVal where
  | dict (entries : List (String × PyVal))
  | list (elems : List PyVal)
  | str (s : String)
  | int (n : Int)
  | bool (b : Bool)
  | noneV
  deriving Repr

/-- Python truthiness of a parsed value: empty containers, `""`, `0`,
`False` and `None` are falsy. -/
def PyVal.truthy : PyVal → Bool
  | .dict es => !es.isEmpty
  | .list es => !es.isEmpty
  | .str s => s ≠ ""
  | .int n => n ≠ 0
  | .bool b => b
  | .noneV => false

/-! ## The `Partial` marker type's guards -/

/-- A raised Python exception, as far as the marker guards go. -/
inductive PyErr where
  | typeError (msg : String)
  deriving DecidableEq, Repr

/-- `Partial.__new__` (lines 158-168): direct construction always raises
`TypeError`, whatever the arguments. -/
def Partial_new (_args : List PyVal) : Except PyErr Unit :=
  Except.error (PyErr.typeError "Cannot instantiate abstract Partial class.")

/-- `Partial.__init_subclass__` (lines 170-180): declaring a subclass always
raises `TypeError` (`"Cannot subclass {}.Partial".format(cls.__module__)`). -/
def Partial_init_subclass (module : String) : Except PyErr Unit :=
  Except.error (PyErr.typeError ("Cannot subclass " ++ module ++ ".Partial"))

/-! ## Definitions used only to state claims -/

/-- The per-field transform exactly as the specification words it
(spec section 4.2): dispatch on "is a parameterized generic"
(`getOrigin`), then on "is itself an object-schema type", else the leaf
case; compared against the source-translated `make_field_optional`. -/
def spec_field_optional (t : Ty) : Ty × Dflt :=
  match getOrigin t with
  | some o =>
      (mkOptional (subscriptGeneric o
        ((getArgs t).map (fun a => if isModelTy a then Partial_getitem a else a))),
       Dflt.noneD)
  | none =>
      if isModelTy t then (mkOptional (Partial_getitem t), Dflt.emptyDict)
      else (mkOptional t, Dflt.noneD)

/-- A field annotation of the plain strict kind: a non-model leaf or a
parameterized container (with a genuine container origin — in Python
`get_origin` never returns `typing.Union` for a container class). -/
def strictLeafOrCont : Ty → Bool
  | Ty.prim _ => true
  | Ty.noneType => true
  | Ty.cont o _ => o ≠ "Union"
  | _ => false

/-- A nested schema `N = {x: int}`, for the idempotence counterexample. -/
def MexN : Ty := Ty.model "N" [("x", Ty.prim "int", Dflt.required)]

/-- A schema `M = {inner: N}` with a directly-nested model field. -/
def Mex : Ty := Ty.model "M" [("inner", MexN, Dflt.required)]

/-- Fields of a strict schema with a primitive and a container field, for
the idempotence witness. -/
def flatFieldsW : List (String × Ty × Dflt) :=
  [("a", Ty.prim "int", Dflt.required),
   ("items", Ty.cont "list" [Ty.model "N" [("x", Ty.prim "int", Dflt.required)]],
    Dflt.required)]

/-- A fragment with one (contentless) choice, so that `chunk.choices` is
truthy and the mode dispatch is reached. -/
def chunkW : Chunk :=
  { choices := some [{ delta := { function_call := none, content := none,
                                  tool_calls := none } }] }

/-- A tolerant parser witness obeying the contract on the one buffer the
`["", "   ", "{}"]` scenario parses: the complete empty object. -/
def parseW (s : String) : Option PyVal :=
  if s = "   {}" then some (PyVal.dict []) else none

/-! ## Equality on annotations -/

mutual

/-- `Ty.beq` decides propositional equality. -/
theorem Ty.beq_iff : ∀ (a b : Ty), Ty.beq a b = true ↔ a = b
  | .prim p, b => by cases b <;> simp [Ty.beq]
  | .noneType, b => by cases b <;> simp [Ty.beq]
  | .model n fs, b => by
      cases b <;> simp [Ty.beq]
      intro _
      exact Ty.fieldsBeq_iff fs _
  | .cont o as, b => by
      cases b <;> simp [Ty.beq]
      intro _
      exact Ty.listBeq_iff as _
  | .union as, b => by
      cases b <;> simp [Ty.beq]
      exact Ty.listBeq_iff as _

/-- `Ty.listBeq` decides propositional equality. -/
theorem Ty.listBeq_iff : ∀ (as bs : List Ty), Ty.listBeq as bs = true ↔ as = bs
  | [], [] => by simp [Ty.listBeq]
  | [], _ :: _ => by simp [Ty.listBeq]
  | _ :: _, [] => by simp [Ty.listBeq]
  | a :: as, b :: bs => by
      simp [Ty.listBeq, Ty.beq_iff a b, Ty.listBeq_iff as bs]

/-- `Ty.fieldsBeq` decides propositional equality. -/
theorem Ty.fieldsBeq_iff :
    ∀ (fs gs : List (String × Ty × Dflt)), Ty.fieldsBeq fs gs = true ↔ fs = gs
  | [], [] => by simp [Ty.fieldsBeq]
  | [], _ :: _ => by simp [Ty.fieldsBeq]
  | _ :: _, [] => by simp [Ty.fieldsBeq]
  | (fn, t, d) :: fs, (gn, u, e) :: gs => by
      simp [Ty.fieldsBeq, Ty.beq_iff t u, Ty.fieldsBeq_iff fs gs]
      tauto

end

instance : DecidableEq Ty := fun a b =>
  decidable_of_iff (Ty.beq a b = true) (Ty.beq_iff a b)

/-- The model branch of `_make_field_optional` is exactly
`(Optional[Partial[annotation]], {})`. -/
theorem make_field_optional_model_eq (n : String)
    (fs : List (String × Ty × Dflt)) :
    make_field_optional (Ty.model n fs)
      = (mkOptional (Partial_getitem (Ty.model n fs)), Dflt.emptyDict) := rfl

/-- `modifiedArgs` is the comprehension
`[Partial[arg] if isinstance(arg, type) and issubclass(arg, BaseModel) else
arg for arg in args]`. -/
theorem modifiedArgs_eq_map (l : List Ty) :
    modifiedArgs l
      = l.map (fun a => if isModelTy a then Partial_getitem a else a) := by
  induction l with
  | nil => rfl
  | cons a rest ih =>
      cases a <;> simp [modifiedArgs, isModelTy, Partial_getitem, ih]

/-! ## Helper lemmas -/

/-- The default `_make_field_optional` installs is never "required". -/
theorem make_field_optional_hasDefault (t : Ty) :
    hasDefault (make_field_optional t).2 = true := by
  cases t <;> rfl

/-- A second application of `_make_field_optional` to the annotation it
produced for a leaf or container field reproduces its result exactly. -/
theorem make_field_optional_idem (t : Ty) (h : strictLeafOrCont t = true) :
    make_field_optional (make_field_optional t).1 = make_field_optional t := by
  cases t with
  | prim p =>
      simp [make_field_optional, mkOptional, mkUnion, unionFlat, dedupTy,
        dedupTyAux, Ty.beq, modifiedArgs, isModelTy, subscriptGeneric]
  | noneType =>
      simp [make_field_optional, mkOptional, mkUnion, unionFlat, dedupTy,
        dedupTyAux, Ty.beq, modifiedArgs, isModelTy, subscriptGeneric]
  | cont o args =>
      have ho : ¬ o = "Union" := by simpa [strictLeafOrCont] using h
      simp [make_field_optional, mkOptional, mkUnion, unionFlat, dedupTy,
        dedupTyAux, Ty.beq, modifiedArgs, isModelTy, subscriptGeneric, ho]
  | model n fs => simp [strictLeafOrCont] at h
  | union args => simp [strictLeafOrCont] at h

/-- Re-optionalizing an already optionalized field dictionary of the plain
strict kind changes nothing. -/
theorem optionalFields_idem (fs : List (String × Ty × Dflt))
    (h : ∀ f ∈ fs, strictLeafOrCont f.2.1 = true) :
    optionalFields (optionalFields fs) = optionalFields fs := by
  induction fs with
  | nil => rfl
  | cons f rest ih =>
      obtain ⟨fn, t, d⟩ := f
      have ht : strictLeafOrCont t = true := h _ (List.mem_cons_self _ _)
      simp [optionalFields, make_field_optional_idem t ht,
        ih (fun g hg => h g (List.mem_cons_of_mem _ hg))]

/-- The emissions of the materializer loop form a `≠`-chain on the instance
component, and the first of them differs from the incoming previous
instance. -/
theorem model_from_chunks_go_chain {J Inst : Type} [DecidableEq Inst]
    (parse : String → Option J) (pyTruthy : J → Bool) (validate : J → Inst) :
    ∀ (l : List String) (buf : String) (prev : Option Inst),
      List.Chain' (fun a b => a.1 ≠ b.1)
        (model_from_chunks_go parse pyTruthy validate buf prev l)
      ∧ ∀ e, (model_from_chunks_go parse pyTruthy validate buf prev l).head?
          = some e → some e.1 ≠ prev := by
  intro l
  induction l with
  | nil =>
      intro buf prev
      exact ⟨List.chain'_nil, by simp [model_from_chunks_go]⟩
  | cons chunk rest ih =>
    intro buf prev
    simp only [model_from_chunks_go]
    cases hp : (if !isBlank (buf ++ chunk) then parse (buf ++ chunk) else none) with
    | none => exact ih (buf ++ chunk) prev
    | some v =>
      by_cases ht : pyTruthy v
      · simp only [ht, if_true]
        by_cases hne : some (validate v) ≠ prev
        · simp only [if_pos hne]
          refine ⟨List.chain'_cons'.2
            ⟨?_, (ih (buf ++ chunk) (some (validate v))).1⟩, ?_⟩
          · intro y hy
            have hne2 := (ih (buf ++ chunk) (some (validate v))).2 y hy
            intro heq
            exact hne2 (congrArg some heq.symm)
          · intro e he
            simp only [List.head?_cons, Option.some.injEq] at he
            rw [← he]
            exact hne
        · simp only [if_neg hne]
          exact ih (buf ++ chunk) prev
      · simp only [ht, if_false]
        exact ih (buf ++ chunk) prev

/-- The asynchronous extraction loop body is the same function as the
synchronous one. -/
theorem extract_json_step_eq : extract_json_async_step = extract_json_step := rfl

/-- The asynchronous extractor agrees with the synchronous one. -/
theorem extract_json_async_eq (completion : List Chunk) (mode : Mode) :
    extract_json_async completion mode = extract_json completion mode := by
  induction completion with
  | nil => rfl
  | cons chunk rest ih =>
      simp only [extract_json, extract_json_async, extract_json_step_eq, ih]

/-- The asynchronous materializer loop agrees with the synchronous one. -/
theorem model_from_chunks_async_go_eq {J Inst : Type} [DecidableEq Inst]
    (parse : String → Option J) (pyTruthy : J → Bool) (validate : J → Inst) :
    ∀ (l : List String) (buf : String) (prev : Option Inst),
      model_from_chunks_async_go parse pyTruthy validate buf prev l
        = model_from_chunks_go parse pyTruthy validate buf prev l := by
  intro l
  induction l with
  | nil => intro buf prev; rfl
  | cons chunk rest ih =>
    intro buf prev
    simp only [model_from_chunks_go, model_from_chunks_async_go]
    cases hp : (if !isBlank (buf ++ chunk) then parse (buf ++ chunk) else none) with
    | none => exact ih (buf ++ chunk) prev
    | some v =>
      by_cases ht : pyTruthy v
      · simp only [ht, if_true]
        by_cases hne : some (validate v) ≠ prev
        · simp only [if_pos hne, ih]
        · simp only [if_neg hne]
          exact ih (buf ++ chunk) prev
      · simp only [ht, if_false]
        exact ih (buf ++ chunk) prev

/-- Successive accumulated buffers extend each other. -/
theorem accBuffersFrom_chain (l : List String) : ∀ buf : String,
    List.Chain' (fun a b => ∃ t, a ++ t = b) (accBuffersFrom buf l) := by
  induction l with
  | nil => intro buf; simp [accBuffersFrom]
  | cons c rest ih =>
    intro buf
    cases rest with
    | nil => simp [accBuffersFrom]
    | cons c' rest' =>
      refine List.chain'_cons'.2 ⟨?_, ih (buf ++ c)⟩
      intro y hy
      simp only [accBuffersFrom, List.head?_cons, Option.mem_def,
        Option.some.injEq] at hy
      exact ⟨c', by rw [← hy]⟩

/-- The n-th accumulated buffer is the concatenation of the first n+1
fragments onto the initial buffer. -/
theorem accBuffersFrom_get (l : List String) :
    ∀ (buf : String) (n : Nat) (h : n < (accBuffersFrom buf l).length),
      (accBuffersFrom buf l).get ⟨n, h⟩
        = (l.take (n + 1)).foldl (· ++ ·) buf := by
  induction l with
  | nil => intro buf n h; simp [accBuffersFrom] at h
  | cons c rest ih =>
    intro buf n h
    cases n with
    | zero => simp [accBuffersFrom]
    | succ m =>
      simp only [accBuffersFrom, List.get_cons_succ, List.take_succ_cons,
        List.foldl_cons]
      exact ih (buf ++ c) m (by simpa [accBuffersFrom] using h)

/-- The materializer loop consults the parser only on the non-blank
accumulated buffers: two parsers agreeing there produce identical output. -/
theorem model_from_chunks_go_parse_ext {J Inst : Type} [DecidableEq Inst]
    (parse1 parse2 : String → Option J) (pyTruthy : J → Bool)
    (validate : J → Inst) :
    ∀ (l : List String) (buf : String) (prev : Option Inst),
      (∀ b ∈ (accBuffersFrom buf l).filter (fun b => !isBlank b),
        parse1 b = parse2 b) →
      model_from_chunks_go parse1 pyTruthy validate buf prev l
        = model_from_chunks_go parse2 pyTruthy validate buf prev l := by
  intro l
  induction l with
  | nil => intro buf prev _; rfl
  | cons chunk rest ih =>
    intro buf prev h
    have htail : ∀ b ∈ (accBuffersFrom (buf ++ chunk) rest).filter
        (fun b => !isBlank b), parse1 b = parse2 b := by
      intro b hb
      rcases List.mem_filter.1 hb with ⟨hmem, hbl⟩
      refine h b (List.mem_filter.2 ⟨?_, hbl⟩)
      show b ∈ accBuffersFrom buf (chunk :: rest)
      simp only [accBuffersFrom]
      exact List.mem_cons_of_mem _ hmem
    have hb : (if !isBlank (buf ++ chunk) then parse1 (buf ++ chunk) else none)
        = (if !isBlank (buf ++ chunk) then parse2 (buf ++ chunk) else none) := by
      by_cases hbl : (!isBlank (buf ++ chunk)) = true
      · simp only [hbl, if_true]
        refine h _ (List.mem_filter.2 ⟨?_, hbl⟩)
        show buf ++ chunk ∈ accBuffersFrom buf (chunk :: rest)
        simp only [accBuffersFrom]
        exact List.mem_cons_self _ _
      · simp [hbl]
    simp only [model_from_chunks_go, hb]
    cases hp : (if !isBlank (buf ++ chunk) then parse2 (buf ++ chunk) else none) with
    | none => exact ih (buf ++ chunk) prev htail
    | some v =>
      by_cases ht : pyTruthy v
      · simp only [ht, if_true]
        by_cases hne : some (validate v) ≠ prev
        · simp only [if_pos hne, ih (buf ++ chunk) (some (validate v)) htail]
        · simp only [if_neg hne]
          exact ih (buf ++ chunk) prev htail
      · simp only [ht, if_false]
        exact ih (buf ++ chunk) prev htail

/-- For a mode outside the supported set, the loop body raises exactly when
the fragment's `choices` is truthy. -/
theorem extract_json_step_unsupported (mode : Mode)
    (h : mode ∉ supportedStreamingModes) (chunk : Chunk) :
    extract_json_step mode chunk
      = if truthyChoices chunk then Except.error (StreamErr.notImplemented mode)
        else Except.ok none := by
  rcases chunk with ⟨_ | ⟨_ | ⟨c, cs⟩⟩⟩ <;> cases mode <;>
    simp [extract_json_step, truthyChoices, supportedStreamingModes] at h ⊢

/-- For a mode outside the supported set, the extractor yields nothing and
raises iff some fragment reaches the mode dispatch. -/
theorem extract_json_unsupported (mode : Mode)
    (h : mode ∉ supportedStreamingModes) (completion : List Chunk) :
    extract_json completion mode
      = ([], if completion.any truthyChoices
          then some (StreamErr.notImplemented mode) else none) := by
  induction completion with
  | nil => rfl
  | cons chunk rest ih =>
    simp only [extract_json, extract_json_step_unsupported mode h chunk]
    by_cases hc : truthyChoices chunk = true
    · simp [hc]
    · simp only [Bool.not_eq_true] at hc
      simp [hc, ih]

/-! ## The claims -/

/-- C1: for every fragment sequence, consecutive instances emitted by
`model_from_chunks` (and `model_from_chunks_async`) are never equal: a
validated candidate equal to the previously emitted instance is never
emitted, however many fragments produced the same content; the comparison is
on the instance itself, the attached raw `chunk` (the second component of
each emitted pair) taking no part in it. -/
theorem C1_consecutive_emissions_differ {J Inst : Type} [DecidableEq Inst]
    (parse : String → Option J) (pyTruthy : J → Bool) (validate : J → Inst)
    (json_chunks : List String) :
    List.Chain' (fun a b => a.1 ≠ b.1)
      (model_from_chunks parse pyTruthy validate json_chunks)
    ∧ List.Chain' (fun a b => a.1 ≠ b.1)
      (model_from_chunks_async parse pyTruthy validate json_chunks) := by
  constructor
  · exact (model_from_chunks_go_chain parse pyTruthy validate
      json_chunks "" none).1
  · rw [model_from_chunks_async,
      model_from_chunks_async_go_eq parse pyTruthy validate json_chunks "" none]
    exact (model_from_chunks_go_chain parse pyTruthy validate
      json_chunks "" none).1

/-- C2: on the fragments `["", "   ", "{}"]` the two blank steps indeed
trigger no parse attempt (the only parser call is on the buffer `"   {}"`),
but, against the claim's "exactly one emission", the materializer emits
nothing: the tolerant parser returns the empty dict for the complete empty
object, the empty dict is falsy, and the `if task_json:` guard drops it. -/
theorem C2_blank_blank_empty_object_yields_no_emission {Inst : Type}
    [DecidableEq Inst] (parse : String → Option PyVal) (validate : PyVal → Inst)
    (hparse : parse "   {}" = some (PyVal.dict [])) :
    model_from_chunks parse PyVal.truthy validate ["", "   ", "{}"] = []
    ∧ parseAttempts ["", "   ", "{}"] = ["   {}"] := by
  refine ⟨?_, rfl⟩
  have e1 : ("" : String) ++ "" = "" := rfl
  have e2 : ("" : String) ++ "   " = "   " := rfl
  have e3 : ("   " : String) ++ "{}" = "   {}" := rfl
  have b1 : (!isBlank "") = false := rfl
  have b2 : (!isBlank "   ") = false := rfl
  have b3 : (!isBlank "   {}") = true := rfl
  simp only [model_from_chunks, model_from_chunks_go, e1, e2, e3, b1, b2, b3,
    if_true, if_false, hparse, PyVal.truthy, List.isEmpty, Bool.not_true,
    Bool.false_eq_true]

/-- C2 witness: the concrete parser `parseW` satisfies the contract
hypothesis, and the run emits nothing. -/
theorem C2_blank_blank_empty_object_yields_no_emission_witness :
    parseW "   {}" = some (PyVal.dict [])
    ∧ model_from_chunks parseW PyVal.truthy (fun _ => (0 : Nat))
        ["", "   ", "{}"] = [] :=
  ⟨rfl, (C2_blank_blank_empty_object_yields_no_emission parseW
    (fun _ => (0 : Nat)) rfl).1⟩

/-- C3: for a mode outside the streaming-supported set, `extract_json` and
`extract_json_async` yield no text at all and end in the
`NotImplementedError` exactly when some fragment has a truthy `choices`
(so the error is raised at the first fragment that reaches the mode
dispatch, and is not swallowed by the `except AttributeError` clause). -/
theorem C3_unsupported_mode_fails_fast (mode : Mode)
    (h : mode ∉ supportedStreamingModes) (completion : List Chunk) :
    extract_json completion mode
      = ([], if completion.any truthyChoices
          then some (StreamErr.notImplemented mode) else none)
    ∧ extract_json_async completion mode
      = ([], if completion.any truthyChoices
          then some (StreamErr.notImplemented mode) else none) := by
  refine ⟨extract_json_unsupported mode h completion, ?_⟩
  rw [extract_json_async_eq]
  exact extract_json_unsupported mode h completion

/-- C3 witness: `PARALLEL_TOOLS` is unsupported, and on one fragment with a
choice the extractor raises at once, having yielded nothing. -/
theorem C3_unsupported_mode_fails_fast_witness :
    Mode.PARALLEL_TOOLS ∉ supportedStreamingModes
    ∧ extract_json [chunkW] Mode.PARALLEL_TOOLS
        = ([], some (StreamErr.notImplemented Mode.PARALLEL_TOOLS)) := by
  refine ⟨by decide, ?_⟩
  have h := (C3_unsupported_mode_fails_fast Mode.PARALLEL_TOOLS (by decide)
    [chunkW]).1
  simpa [chunkW, truthyChoices] using h

/-- C4: `_make_field_optional` realizes, case for case, the specification's
per-field transform: a parameterized generic becomes a nullable wrapper of
the container with exactly its directly-model arguments replaced by their
Partial derivative, default None; a direct object-schema type becomes a
nullable wrapper of its Partial derivative, default the empty dict; any
other type becomes a nullable wrapper of itself, default None. -/
theorem C4_field_transform_matches_spec (t : Ty) :
    make_field_optional t = spec_field_optional t := by
  cases t <;>
    simp [make_field_optional, spec_field_optional, getOrigin, getArgs,
      isModelTy, modifiedArgs_eq_map, subscriptGeneric, Partial_getitem]

/-- C5 counterexample: optionalizing `M = {inner: N}` once gives the
`inner` field the default `{}`, optionalizing twice gives it the default
`None` — the two derived schemas do not have the same default for every
field, refuting idempotence as claimed. -/
theorem C5_reoptionalization_changes_nested_default :
    ((modelFields (Partial_getitem (Partial_getitem Mex))).map
        (fun f => (f.1, f.2.2)) = [("inner", Dflt.noneD)])
    ∧ ((modelFields (Partial_getitem Mex)).map
        (fun f => (f.1, f.2.2)) = [("inner", Dflt.emptyDict)]) :=
  ⟨rfl, rfl⟩

/-- C5 amended: the transform is a pure function of the declared fields
(determinism), and re-optionalizing is the identity on the derived field
dictionary whenever every source field is a non-model leaf or a
parameterized container; only directly-nested object-schema fields (and the
schema name prefix) change on a second application. -/
theorem C5_idempotent_on_leaf_and_container_fields (n : String)
    (fs : List (String × Ty × Dflt))
    (h : ∀ f ∈ fs, strictLeafOrCont f.2.1 = true) :
    modelFields (Partial_getitem (Partial_getitem (Ty.model n fs)))
      = modelFields (Partial_getitem (Ty.model n fs)) := by
  simp [Partial_getitem, modelFields, optionalFields_idem fs h]

/-- C5 witness: a schema with a primitive field and a `list[N]` field is
untouched, field for field, by a second optionalization. -/
theorem C5_idempotent_on_leaf_and_container_fields_witness :
    (∀ f ∈ flatFieldsW, strictLeafOrCont f.2.1 = true)
    ∧ modelFields (Partial_getitem (Partial_getitem (Ty.model "M" flatFieldsW)))
        = modelFields (Partial_getitem (Ty.model "M" flatFieldsW)) :=
  ⟨by decide, C5_idempotent_on_leaf_and_container_fields "M" flatFieldsW
    (by decide)⟩

/-- C6: on the same fragments, mode, schema and validation options, the
synchronous and the asynchronous pipeline agree at every stage: the full
`from_streaming_response` pair, `model_from_chunks` pair, and `extract_json`
pair produce identical output (the markdown unwrapper applied in `MD_JSON`
mode is the same `md_unwrap` on both sides). -/
theorem C6_sync_async_pipelines_agree {J Inst : Type} [DecidableEq Inst]
    (parse : String → Option J) (pyTruthy : J → Bool) (validate : J → Inst)
    (md_unwrap : List String → List String) (completion : List Chunk)
    (mode : Mode) (json_chunks : List String) :
    from_streaming_response_async parse pyTruthy validate md_unwrap
        completion mode
      = from_streaming_response parse pyTruthy validate md_unwrap
        completion mode
    ∧ model_from_chunks_async parse pyTruthy validate json_chunks
      = model_from_chunks parse pyTruthy validate json_chunks
    ∧ extract_json_async completion mode = extract_json completion mode := by
  have hmc : ∀ l : List String,
      model_from_chunks_async parse pyTruthy validate l
        = model_from_chunks parse pyTruthy validate l := fun l =>
    model_from_chunks_async_go_eq parse pyTruthy validate l "" none
  refine ⟨?_, hmc json_chunks, extract_json_async_eq completion mode⟩
  simp only [from_streaming_response, from_streaming_response_async,
    extract_json_async_eq, hmc]

/-- C7: calling the un-parameterized marker `Partial(...)` raises
`TypeError` whatever the arguments, subclassing it raises `TypeError`, and
the derived class `Partial[SomeModel]` is instantiable with no arguments:
every one of its fields carries a default. -/
theorem C7_marker_guards_and_derived_usability :
    (∀ args : List PyVal,
      Partial_new args
        = Except.error
            (PyErr.typeError "Cannot instantiate abstract Partial class."))
    ∧ (∀ module : String,
      Partial_init_subclass module
        = Except.error
            (PyErr.typeError ("Cannot subclass " ++ module ++ ".Partial")))
    ∧ (∀ (n : String) (fs : List (String × Ty × Dflt)),
        (modelFields (Partial_getitem (Ty.model n fs))).all
          (fun f => hasDefault f.2.2) = true) := by
  refine ⟨fun _ => rfl, fun _ => rfl, ?_⟩
  intro n fs
  simp only [Partial_getitem, modelFields]
  induction fs with
  | nil => rfl
  | cons f rest ih =>
      obtain ⟨fn, t, d⟩ := f
      simp [optionalFields, make_field_optional_hasDefault, ih]

/-- C8: the accumulated buffer is append-only (each buffer is a prefix of
the next), the n-th buffer is exactly the concatenation of the first n+1
fragments, and the materializer consults the parser only on the non-blank
accumulated buffers — never on a diff or suffix — so two parsers agreeing
there produce identical emissions. -/
theorem C8_monotonic_buffer_full_reparse (json_chunks : List String) :
    List.Chain' (fun a b => ∃ t, a ++ t = b) (accBuffers json_chunks)
    ∧ (∀ (n : Nat) (h : n < (accBuffers json_chunks).length),
        (accBuffers json_chunks).get ⟨n, h⟩
          = (json_chunks.take (n + 1)).foldl (· ++ ·) "")
    ∧ (∀ {J Inst : Type} [DecidableEq Inst]
        (parse1 parse2 : String → Option J)
        (pyTruthy : J → Bool) (validate : J → Inst),
        (∀ b ∈ parseAttempts json_chunks, parse1 b = parse2 b) →
        model_from_chunks parse1 pyTruthy validate json_chunks
          = model_from_chunks parse2 pyTruthy validate json_chunks) := by
  refine ⟨accBuffersFrom_chain json_chunks "",
    accBuffersFrom_get json_chunks "", ?_⟩
  intro J Inst instDec parse1 parse2 pyTruthy validate hagree
  exact model_from_chunks_go_parse_ext parse1 parse2 pyTruthy validate
    json_chunks "" none hagree

/-- C9: generic-argument optionalization is one container level deep: in
`list[list[Inner]]` and `dict[str, list[Inner]]` the nested `Inner` is left
exactly as declared (not replaced by its Partial derivative), while a
directly-contained `Inner` in `list[Inner]` is replaced. -/
theorem C9_one_container_level_deep (oi n : String)
    (fs : List (String × Ty × Dflt)) :
    make_field_optional (Ty.cont "list" [Ty.cont oi [Ty.model n fs]])
      = (Ty.union [Ty.cont "list" [Ty.cont oi [Ty.model n fs]], Ty.noneType],
         Dflt.noneD)
    ∧ make_field_optional
        (Ty.cont "dict" [Ty.prim "str", Ty.cont "list" [Ty.model n fs]])
      = (Ty.union [Ty.cont "dict"
            [Ty.prim "str", Ty.cont "list" [Ty.model n fs]], Ty.noneType],
         Dflt.noneD)
    ∧ make_field_optional (Ty.cont "list" [Ty.model n fs])
      = (Ty.union [Ty.cont "list"
            [Ty.model ("Partial" ++ n) (optionalFields fs)], Ty.noneType],
         Dflt.noneD) := by
  refine ⟨?_, ?_, ?_⟩ <;>
    simp [make_field_optional, modifiedArgs, isModelTy, subscriptGeneric,
      mkOptional, mkUnion, unionFlat, dedupTy, dedupTyAux, Ty.beq]

/-- C10: a fragment whose `choices` is absent, `None` or empty is skipped
before any mode dispatch — nothing is yielded and no unsupported-mode error
is raised for it, whatever the mode — and only `choices[0]` is ever
inspected: any further choices do not affect the output. -/
theorem C10_choices_guard_and_first_choice_only (mode : Mode)
    (rest : List Chunk) (c : Choice) (cs : List Choice) :
    extract_json ({ choices := none } :: rest) mode = extract_json rest mode
    ∧ extract_json ({ choices := some [] } :: rest) mode
        = extract_json rest mode
    ∧ extract_json ({ choices := some (c :: cs) } :: rest) mode
        = extract_json ({ choices := some [c] } :: rest) mode
    ∧ extract_json_async ({ choices := none } :: rest) mode
        = extract_json_async rest mode
    ∧ extract_json_async ({ choices := some [] } :: rest) mode
        = extract_json_async rest mode
    ∧ extract_json_async ({ choices := some (c :: cs) } :: rest) mode
        = extract_json_async ({ choices := some [c] } :: rest) mode := by
  have hstep : extract_json_step mode { choices := some (c :: cs) }
      = extract_json_step mode { choices := some [c] } := rfl
  have hasync : extract_json_async_step mode { choices := some (c :: cs) }
      = extract_json_async_step mode { choices := some [c] } := rfl
  exact ⟨rfl, rfl, by simp only [extract_json, hstep], rfl, rfl,
    by simp only [extract_json_async, hasync]⟩

end Instructor
